import Mathlib

/-!
Shallow embedding of the chores-game web application core
(session codec, Firestore REST client helpers, token refresh wrapper,
re-invite and chore-creation route handlers), with theorems checking
the natural-language specification against it.

External platform primitives (HMAC-SHA256, base64url/JSON serialization,
the JavaScript Number parser, HTTP responses) are passed as explicit
parameters; everything else is translated from the TypeScript source.
-/

namespace ChoresGame

/-! ## JavaScript string primitives -/

/-- Embedding of list containment used by JS String.prototype.includes. -/
def listIncludes (pat : List Char) : List Char → Bool
  | [] => decide (pat = [])
  | c :: rest => pat.isPrefixOf (c :: rest) || listIncludes pat rest

/-- JS s.includes(pat). -/
def strIncludes (s pat : String) : Bool :=
  listIncludes pat.data s.data

/-- JS String.prototype.split with a one-character separator, on char lists. -/
def splitOnChar (sep : Char) : List Char → List (List Char)
  | [] => [[]]
  | c :: rest =>
    let r := splitOnChar sep rest
    if c = sep then [] :: r
    else
      match r with
      | [] => [[c]]
      | h :: t => (c :: h) :: t

/-- JS token.split with a dot separator, on strings. -/
def jsSplitDot (s : String) : List String :=
  (splitOnChar '.' s.data).map String.mk

/-- JS falsiness of an optional string: undefined or the empty string. -/
def jsFalsyOpt : Option String → Bool
  | none => true
  | some s => s = ""

/-- JS String.prototype.trim: strip leading and trailing whitespace. -/
def jsTrim (s : String) : String :=
  String.mk (((s.data.dropWhile Char.isWhitespace).reverse.dropWhile
    Char.isWhitespace).reverse)

/-- JS String.prototype.toLowerCase, per character. -/
def jsToLower (s : String) : String :=
  String.mk (s.data.map Char.toLower)

/-! ## Session codec (src/apps/web/src/lib/auth/session.ts) -/

/-- The SessionUser record carried by the session cookie. -/
structure SessionUser where
  uid : String
  role : String
  email : String
  name : String
  picture : String
  firebaseIdToken : Option String
  firebaseRefreshToken : Option String
  deriving DecidableEq, Repr

/-- The signed payload: the user fields plus an expiry.  The exp field is
Option-valued because a decoded JSON payload may lack it entirely. -/
structure SessionPayload where
  uid : String
  role : String
  email : String
  name : String
  picture : String
  firebaseIdToken : Option String
  firebaseRefreshToken : Option String
  exp : Option Int
  deriving DecidableEq, Repr

def SESSION_MAX_AGE_SECONDS : Int := 60 * 60 * 24 * 7

/-- getSecret: reads SESSION_SECRET from the environment (here a parameter);
a missing, empty, or shorter-than-32-character secret yields null. -/
def getSecret (env : Option String) : Option String :=
  match env with
  | none => none
  | some secret => if secret = "" ∨ secret.length < 32 then none else some secret

/-- createSessionToken.  The hmac parameter models
createHmac("sha256", secret).update(value).digest("base64url"); the encode
parameter models base64url of JSON.stringify of the payload. -/
def createSessionToken (hmac : String → String → String)
    (encode : SessionPayload → String)
    (env : Option String) (now : Int) (user : SessionUser) : Option String :=
  match getSecret env with
  | none => none
  | some secret =>
    let payload : SessionPayload :=
      { uid := user.uid, role := user.role, email := user.email,
        name := user.name, picture := user.picture,
        firebaseIdToken := user.firebaseIdToken,
        firebaseRefreshToken := user.firebaseRefreshToken,
        exp := some (now + SESSION_MAX_AGE_SECONDS) }
    let encodedPayload := encode payload
    let signature := hmac secret encodedPayload
    some (encodedPayload ++ "." ++ signature)

/-- The expiry test in parseSessionToken:
!parsed.exp || parsed.exp < Math.floor(Date.now() / 1000). -/
def expiryRejects (exp : Option Int) (now : Int) : Bool :=
  match exp with
  | none => true
  | some e => e = 0 || e < now

/-- parseSessionToken.  The decode parameter models
JSON.parse(Buffer.from(encodedPayload, "base64url").toString("utf8")), with
none standing for a thrown parse error (caught by the source and mapped to
null). -/
def parseSessionToken (hmac : String → String → String)
    (decode : String → Option SessionPayload)
    (env : Option String) (now : Int) (token : Option String) :
    Option SessionUser :=
  match getSecret env, token with
  | none, _ => none
  | some _, none => none
  | some secret, some tok =>
    if tok = "" then none
    else
      let parts := jsSplitDot tok
      match parts.get? 0, parts.get? 1 with
      | some encodedPayload, some providedSig =>
        if encodedPayload = "" ∨ providedSig = "" then none
        else
          let expectedSig := hmac secret encodedPayload
          if expectedSig.utf8ByteSize ≠ providedSig.utf8ByteSize ∨
              expectedSig ≠ providedSig then none
          else
            match decode encodedPayload with
            | none => none
            | some parsed =>
              if expiryRejects parsed.exp now then none
              else
                some { uid := parsed.uid, role := parsed.role,
                       email := parsed.email, name := parsed.name,
                       picture := parsed.picture,
                       firebaseIdToken := parsed.firebaseIdToken,
                       firebaseRefreshToken := parsed.firebaseRefreshToken }
      | _, _ => none

/-- node:crypto timingSafeEqual on utf8 buffers: throws on buffers of
different byte length, otherwise reports byte equality (utf8 encoding is
injective, so byte equality is string equality). -/
def timingSafeEqual (a b : String) : Except String Bool :=
  if a.utf8ByteSize = b.utf8ByteSize then .ok (a == b)
  else .error "ERR_CRYPTO_TIMING_SAFE_EQUAL"

/-- parseSessionToken with every exception-capable step made explicit in an
Except monad: timingSafeEqual can throw (only reached after the length
short-circuit), and the JSON decode throw is caught by the try/catch. -/
def parseSessionTokenE (hmac : String → String → String)
    (decode : String → Option SessionPayload)
    (env : Option String) (now : Int) (token : Option String) :
    Except String (Option SessionUser) :=
  match getSecret env, token with
  | none, _ => .ok none
  | some _, none => .ok none
  | some secret, some tok =>
    if tok = "" then .ok none
    else
      let parts := jsSplitDot tok
      match parts.get? 0, parts.get? 1 with
      | some encodedPayload, some providedSig =>
        if encodedPayload = "" ∨ providedSig = "" then .ok none
        else
          let expectedSig := hmac secret encodedPayload
          if expectedSig.utf8ByteSize ≠ providedSig.utf8ByteSize then .ok none
          else do
            let eq ← timingSafeEqual expectedSig providedSig
            if !eq then .ok none
            else
              match decode encodedPayload with
              | none => .ok none
              | some parsed =>
                if expiryRejects parsed.exp now then .ok none
                else
                  .ok (some { uid := parsed.uid, role := parsed.role,
                              email := parsed.email, name := parsed.name,
                              picture := parsed.picture,
                              firebaseIdToken := parsed.firebaseIdToken,
                              firebaseRefreshToken := parsed.firebaseRefreshToken })
      | _, _ => .ok none

/-! ## Firestore wire values and read/write helpers
(src/apps/web/src/lib/firestore/rest.ts) -/

/-- Firestore field values in the REST JSON wire format.  Numbers read from
documents are modelled as rationals (JS numbers are a subset). -/
inductive FirestoreValue where
  | stringValue (s : String)
  | integerValue (s : String)
  | timestampValue (s : String)
  | booleanValue (b : Bool)
  | arrayValue (values : List FirestoreValue)
  | mapValue (fields : List (String × FirestoreValue))

/-- A document field map; undefined in TS is none. -/
abbrev Fields := List (String × FirestoreValue)

/-- JS object property access fields[key] on a field map. -/
def getField : Fields → String → Option FirestoreValue
  | [], _ => none
  | (k, v) :: rest, key => if key = k then some v else getField rest key

/-- fields?.[key]: property access through the optional chain. -/
def getFieldOpt (fields : Option Fields) (key : String) : Option FirestoreValue :=
  getField (fields.getD []) key

/-- readString: empty string unless the field is present with a stringValue. -/
def readString (fields : Option Fields) (key : String) : String :=
  match getFieldOpt fields key with
  | some (.stringValue s) => s
  | _ => ""

/-- readTimestamp: accepts a timestampValue or a stringValue, else empty. -/
def readTimestamp (fields : Option Fields) (key : String) : String :=
  match getFieldOpt fields key with
  | some (.timestampValue s) => s
  | some (.stringValue s) => s
  | _ => ""

/-- readBoolean: a booleanValue is taken as is; a stringValue is compared
with the string true; anything else is false. -/
def readBoolean (fields : Option Fields) (key : String) : Bool :=
  match getFieldOpt fields key with
  | some (.booleanValue b) => b
  | some (.stringValue s) => s == "true"
  | _ => false

/-- readInteger.  The parseNum parameter models the JS Number conversion
composed with the Number.isFinite test: none stands for NaN or an infinity. -/
def readInteger (parseNum : String → Option ℚ)
    (fields : Option Fields) (key : String) : ℚ :=
  match getFieldOpt fields key with
  | some (.integerValue s) => (parseNum s).getD 0
  | some (.stringValue s) => (parseNum s).getD 0
  | _ => 0

/-- readStringArray: the stringValue entries of an arrayValue, dropping
non-strings (mapped to empty and filtered out) and empty strings. -/
def readStringArray (fields : Option Fields) (key : String) : List String :=
  match getFieldOpt fields key with
  | some (.arrayValue values) =>
    (values.map fun entry =>
        match entry with
        | .stringValue s => s
        | _ => "").filter (fun entry => entry.length > 0)
  | _ => []

def stringField (value : String) : FirestoreValue := .stringValue value

def timestampField (value : String) : FirestoreValue := .timestampValue value

def boolField (value : Bool) : FirestoreValue := .booleanValue value

/-- integerField: String(Math.max(0, Math.floor(value))). -/
def integerField (value : ℚ) : FirestoreValue :=
  .integerValue (toString (max 0 ⌊value⌋))

def stringArrayField (values : List String) : FirestoreValue :=
  .arrayValue (values.map (fun value => .stringValue value))

/-! ## Firestore REST transport errors -/

/-- An HTTP response from the Firestore REST endpoint, as observed by
requestFirestore: the status line, the error body (errMessage none models a
body whose json() call throws or carries no error.message, in which case the
text body is used), and for OK responses the parsed JSON body (none models a
json() throw on the OK path). -/
structure HttpResponse (α : Type) where
  ok : Bool
  status : Nat
  errMessage : Option String
  errText : String
  body : Option α

/-- The detail string computed in the catch blocks of requestFirestore and
deleteDocument: json.error?.message ?? "" when the body parses, the raw text
otherwise. -/
def firestoreErrorDetail {α : Type} (response : HttpResponse α) : String :=
  match response.errMessage with
  | some m => m
  | none => response.errText

/-- The thrown message: FIRESTORE_HTTP_ then the status, then _detail when
the detail is non-empty. -/
def firestoreErrorMessage {α : Type} (response : HttpResponse α) : String :=
  "FIRESTORE_HTTP_" ++ toString response.status ++
    (if firestoreErrorDetail response = "" then ""
     else "_" ++ firestoreErrorDetail response)

/-- requestFirestore, as a function of the fetched response: throws the
tagged error on a non-OK status, otherwise returns the parsed JSON body
(a json() throw on the OK path is the JSON_PARSE_ERROR case). -/
def requestFirestore {α : Type} (response : HttpResponse α) : Except String α :=
  if !response.ok then .error (firestoreErrorMessage response)
  else
    match response.body with
    | some b => .ok b
    | none => .error "JSON_PARSE_ERROR"

/-- deleteDocument, as a function of the fetched response: same tagged error
on a non-OK status; the OK path reads no body. -/
def deleteDocument (response : HttpResponse Unit) : Except String Unit :=
  if !response.ok then .error (firestoreErrorMessage response)
  else .ok ()

/-! ## Firebase token refresh wrapper
(src/apps/web/src/lib/auth/firebase-refresh.ts) -/

/-- The securetoken.googleapis.com token-exchange response as observed by
refreshFirebaseSession. -/
structure RefreshHttpResponse where
  ok : Bool
  status : Nat
  errMessage : Option String
  id_token : String
  refresh_token : String
  user_id : String

/-- isFirestoreUnauthorizedError: the thrown message contains
FIRESTORE_HTTP_401. -/
def isFirestoreUnauthorizedError (message : String) : Bool :=
  strIncludes message "FIRESTORE_HTTP_401"

/-- refreshFirebaseSession: exchanges the refresh token, with the refresh
endpoint response passed in; a mismatched identity in the response is the
fatal FIREBASE_REFRESH_UID_MISMATCH error. -/
def refreshFirebaseSession (apiKey : Option String)
    (session : SessionUser) (response : RefreshHttpResponse) :
    Except String SessionUser :=
  if jsFalsyOpt apiKey then .error "FIREBASE_API_KEY_MISSING"
  else if jsFalsyOpt session.firebaseRefreshToken then
    .error "MISSING_FIREBASE_REFRESH_TOKEN"
  else if !response.ok then
    .error ("FIREBASE_REFRESH_FAILED_" ++ toString response.status ++
      (match response.errMessage with
       | some m => if m = "" then "" else "_" ++ m
       | none => ""))
  else if response.user_id ≠ session.uid then
    .error "FIREBASE_REFRESH_UID_MISMATCH"
  else
    .ok { session with
          firebaseIdToken := some response.id_token,
          firebaseRefreshToken := some response.refresh_token }

/-- The attempt closure of runWithRefreshedFirebaseToken: a falsy token
throws MISSING_FIREBASE_ID_TOKEN before the work runs. -/
def attemptWork {α : Type} (work : String → Except String α)
    (token : Option String) : Except String α :=
  if jsFalsyOpt token then .error "MISSING_FIREBASE_ID_TOKEN"
  else work ((token).getD "")

/-- The tokens the attempt closure actually passes to the work operation:
none when the token is falsy, the token itself otherwise. -/
def attemptCalls (token : Option String) : List String :=
  if jsFalsyOpt token then [] else [(token).getD ""]

/-- runWithRefreshedFirebaseToken, instrumented: alongside the result it
returns the list of ID tokens with which the wrapped work operation was
invoked, in order.  The control flow mirrors the source: one attempt with
the current ID token; on an unauthorized signal (FIRESTORE_HTTP_401 in the
message, or a missing ID token) one refresh followed by one retry; any other
failure of the first attempt is rethrown. -/
def runWithRefreshedFirebaseTokenTr {α : Type} (apiKey : Option String)
    (session : SessionUser) (work : String → Except String α)
    (refreshResponse : RefreshHttpResponse) :
    Except String (α × SessionUser × Bool) × List String :=
  if jsFalsyOpt session.firebaseIdToken ∧ jsFalsyOpt session.firebaseRefreshToken then
    (.error "MISSING_FIREBASE_SESSION", [])
  else
    match attemptWork work session.firebaseIdToken with
    | .ok data => (.ok (data, session, false), attemptCalls session.firebaseIdToken)
    | .error e =>
      if ¬ isFirestoreUnauthorizedError e ∧ e ≠ "MISSING_FIREBASE_ID_TOKEN" then
        (.error e, attemptCalls session.firebaseIdToken)
      else
        match refreshFirebaseSession apiKey session refreshResponse with
        | .error e2 => (.error e2, attemptCalls session.firebaseIdToken)
        | .ok refreshedSession =>
          match attemptWork work refreshedSession.firebaseIdToken with
          | .ok data =>
            (.ok (data, refreshedSession, true),
             attemptCalls session.firebaseIdToken ++
               attemptCalls refreshedSession.firebaseIdToken)
          | .error e2 =>
            (.error e2,
             attemptCalls session.firebaseIdToken ++
               attemptCalls refreshedSession.firebaseIdToken)

/-- runWithRefreshedFirebaseToken: the result component of the traced run. -/
def runWithRefreshedFirebaseToken {α : Type} (apiKey : Option String)
    (session : SessionUser) (work : String → Except String α)
    (refreshResponse : RefreshHttpResponse) :
    Except String (α × SessionUser × Bool) :=
  (runWithRefreshedFirebaseTokenTr apiKey session work refreshResponse).1

/-! ## A functional model of the Firestore document store

Documents live at structured paths (the string templates in the source are
injective in their id components); getDocument raises the tagged 404 error
on a missing document, PATCH with an updateMask merges the given fields,
and PATCH without a mask (createOrReplaceDocument) replaces the document. -/

inductive DocPath where
  | user (uid : String)
  | family (fid : String)
  | member (fid mid : String)
  | inviteLookup (email : String)
  | chore (fid cid : String)
  | choreUsage (fid key : String)
  | choreUsageGlobal (key : String)
  deriving DecidableEq, Repr

abbrev Store := List (DocPath × Fields)

def findDoc : Store → DocPath → Option Fields
  | [], _ => none
  | (q, f) :: rest, p => if p = q then some f else findDoc rest p

/-- getDocument over the store: a missing document is the Firestore 404. -/
def getDocumentS (path : DocPath) (store : Store) : Except String Fields :=
  match findDoc store path with
  | some fields => .ok fields
  | none => .error "FIRESTORE_HTTP_404_Document not found"

/-- createOrReplaceDocument over the store: replaces the whole document. -/
def setDoc : Store → DocPath → Fields → Store
  | [], path, fields => [(path, fields)]
  | (q, f) :: rest, path, fields =>
    if q = path then (q, fields) :: rest else (q, f) :: setDoc rest path fields

/-- Set one field of a document, keeping the others. -/
def upsertField : Fields → String → FirestoreValue → Fields
  | [], key, value => [(key, value)]
  | (k, v) :: rest, key, value =>
    if k = key then (k, value) :: rest else (k, v) :: upsertField rest key value

/-- patchDocument with an updateMask over the store: merges the given
(masked) fields into the document, creating it when absent. -/
def patchDoc (store : Store) (path : DocPath) (fields : Fields) : Store :=
  match findDoc store path with
  | some old => setDoc store path (fields.foldl (fun acc kv => upsertField acc kv.1 kv.2) old)
  | none => setDoc store path fields

/-- JS string || default. -/
def jsOrDefault (s d : String) : String := if s = "" then d else s

/-- getPrimaryFamilyId: first entry of the familyIds array of users/uid. -/
def getPrimaryFamilyId (uid : String) (store : Store) : Except String String := do
  let userDoc ← getDocumentS (.user uid) store
  pure ((readStringArray (some userDoc) "familyIds").headD "")

/-! ## The re-invite route handler
(src/apps/web/src/app/api/family/members/[memberId]/reinvite/route.ts) -/

inductive ReinviteResult where
  | familyNotFound
  | notAllowed
  | cannotReinviteSelf
  | memberEmailRequired
  | memberNotFound
  | ok (reinvitedAt : String)
  deriving DecidableEq, Repr

/-- The work closure of the re-invite POST handler, over the store. -/
def reinviteWork (sessionUid memberId now : String) (store : Store) :
    Except String (ReinviteResult × Store) := do
  let familyId ← getPrimaryFamilyId sessionUid store
  if familyId = "" then return (.familyNotFound, store)
  let requesterMemberDoc ← getDocumentS (.member familyId sessionUid) store
  let requesterRole := readString (some requesterMemberDoc) "role"
  if requesterRole ≠ "admin" then return (.notAllowed, store)
  let memberDoc ← getDocumentS (.member familyId memberId) store
  let memberUid := readString (some memberDoc) "uid"
  let memberEmail := jsToLower (jsTrim (readString (some memberDoc) "email"))
  let memberName := readString (some memberDoc) "name"
  let memberRole :=
    if readString (some memberDoc) "role" == "admin" then "admin" else "player"
  let createdBy := readString (some memberDoc) "createdBy"
  let createdAt := readTimestamp (some memberDoc) "createdAt"
  let deleted := readBoolean (some memberDoc) "deleted"
  if memberId = sessionUid ∨ memberUid = sessionUid then
    return (.cannotReinviteSelf, store)
  if memberEmail = "" then return (.memberEmailRequired, store)
  if deleted then return (.memberNotFound, store)
  let emailKeyedMemberId := memberEmail
  if memberUid = "" ∧ emailKeyedMemberId ≠ memberId then
    let store1 := setDoc store (.member familyId emailKeyedMemberId)
      [("name", stringField (jsOrDefault memberName "Unnamed member")),
       ("email", stringField memberEmail),
       ("role", stringField memberRole),
       ("status", stringField "invited"),
       ("deleted", boolField false),
       ("createdBy", stringField (jsOrDefault createdBy sessionUid)),
       ("createdAt", timestampField (jsOrDefault createdAt now)),
       ("reinvitedAt", timestampField now)]
    let store2 := patchDoc store1 (.member familyId memberId)
      [("deleted", boolField true), ("deletedAt", timestampField now)]
    let store3 := setDoc store2 (.inviteLookup memberEmail)
      [("email", stringField memberEmail),
       ("familyId", stringField familyId),
       ("role", stringField memberRole),
       ("status", stringField "invited"),
       ("updatedAt", timestampField now)]
    return (.ok now, store3)
  else
    let store1 := patchDoc store (.member familyId memberId)
      [("status", stringField "invited"), ("reinvitedAt", timestampField now)]
    let store2 := setDoc store1 (.inviteLookup memberEmail)
      [("email", stringField memberEmail),
       ("familyId", stringField familyId),
       ("role", stringField memberRole),
       ("status", stringField "invited"),
       ("updatedAt", timestampField now)]
    return (.ok now, store2)

/-- A JSON route response: HTTP status, and the error code when failing. -/
structure ApiResponse where
  status : Nat
  error : Option String
  deriving DecidableEq, Repr

/-- The response mapping after the re-invite work resolves (lines 167 to 187
of the route). -/
def reinviteRespond : ReinviteResult → ApiResponse
  | .familyNotFound => ⟨404, some "family_not_found"⟩
  | .cannotReinviteSelf => ⟨400, some "cannot_reinvite_self"⟩
  | .memberEmailRequired => ⟨400, some "member_email_required"⟩
  | .memberNotFound => ⟨404, some "member_not_found"⟩
  | .notAllowed => ⟨403, some "not_allowed"⟩
  | .ok _ => ⟨200, none⟩

/-! ## The chore-creation route handler (app/api/chores/route.ts) -/

/-- A parsed JSON value as a route body field of TS type unknown. -/
inductive JSVal where
  | undef
  | str (s : String)
  | arr (xs : List JSVal)
  | other

structure CreateChoresBody where
  description : JSVal
  assigneeId : JSVal
  details : JSVal
  titles : JSVal
  dueDate : JSVal

/-- Split a char list at every char satisfying p (one segment boundary per
separator char, like String.prototype.split with a char class). -/
def splitPred (p : Char → Bool) : List Char → List (List Char)
  | [] => [[]]
  | c :: rest =>
    let r := splitPred p rest
    if p c then [] :: r
    else
      match r with
      | [] => [[c]]
      | h :: t => (c :: h) :: t

/-- normalizeDescription: value.trim() with every whitespace run collapsed
to a single space, i.e. the whitespace-separated words joined by spaces. -/
def normalizeDescription (value : String) : String :=
  String.intercalate " "
    (((splitPred Char.isWhitespace value.data).map String.mk).filter
      (fun w => w != ""))

/-- usageKey: lowercase the normalized description, keep only ascii letters,
digits and spaces, join the words with dashes, cut to 80, default misc. -/
def usageKey (value : String) : String :=
  let normalized := (normalizeDescription value).toLower
  let kept := String.mk (normalized.data.filter
    (fun c => (('a' ≤ c ∧ c ≤ 'z') ∨ ('0' ≤ c ∧ c ≤ '9') ∨ c = ' ' : Bool)))
  let key := String.intercalate "-"
    (((splitPred (fun c => c = ' ') (kept.trim).data).map String.mk).filter
      (fun w => w != ""))
  let sliced := key.take 80
  if sliced = "" then "misc" else sliced

/-- The /^\d{4})-\d{2}-\d{2}$/ test of asDateOrToday. -/
def isIsoDateShape (s : String) : Bool :=
  match s.data with
  | [a, b, c, d, h1, e, f, h2, g, h] =>
    a.isDigit && b.isDigit && c.isDigit && d.isDigit && h1 = '-' &&
      e.isDigit && f.isDigit && h2 = '-' && g.isDigit && h.isDigit
  | _ => false

/-- asDateOrToday, with the current date passed in. -/
def asDateOrToday (value : JSVal) (today : String) : String :=
  match value with
  | .str s => if isIsoDateShape s then s else today
  | _ => today

/-- The single-description branch of the title computation. -/
def descriptionFromSingle (value : JSVal) : String :=
  match value with
  | .str s => normalizeDescription s
  | _ => ""

/-- The titles-list branch: keep the strings, normalize, drop empties,
cap at 100. -/
def titlesFromList (value : JSVal) : List String :=
  let titlesInput : List JSVal :=
    match value with
    | .arr xs => xs
    | _ => []
  let stringsOnly := titlesInput.filterMap fun entry =>
    match entry with
    | .str s => some s
    | _ => none
  (((stringsOnly.map normalizeDescription).filter
    (fun title => title.length > 0)).take 100)

/-- titles = descriptionFromSingle ? [descriptionFromSingle] : titlesFromList. -/
def computeTitles (body : CreateChoresBody) : List String :=
  if descriptionFromSingle body.description ≠ "" then
    [descriptionFromSingle body.description]
  else titlesFromList body.titles

/-- getFamilyMemberName: the member name or Unassigned, with a 404 from the
lookup also mapped to Unassigned and other errors rethrown. -/
def getFamilyMemberName (familyId memberId : String) (store : Store) :
    Except String String :=
  match getDocumentS (.member familyId memberId) store with
  | .ok fields => .ok (jsOrDefault (readString (some fields) "name") "Unassigned")
  | .error reason =>
    if strIncludes reason "FIRESTORE_HTTP_404" then .ok "Unassigned"
    else .error reason

/-- incrementUsageCount: read the current count (0 when the usage document
is missing, rethrowing non-404 errors), then write the document back with
the count bumped through integerField. -/
def incrementUsageCount (parseNum : String → Option ℚ) (path : DocPath)
    (description : String) (usageField : String) (now : String)
    (store : Store) : Except String Store := do
  let currentCount : ℚ ←
    match getDocumentS path store with
    | .ok fields => pure (readInteger parseNum (some fields) usageField)
    | .error reason =>
      if strIncludes reason "FIRESTORE_HTTP_404" then pure 0
      else .error reason
  pure (setDoc store path
    [("description", stringField description),
     ("normalized", stringField description.toLower),
     (usageField, integerField (currentCount + 1)),
     ("updatedAt", timestampField now)])

/-- The chore document fields written for one title. -/
def choreFields (title assigneeId assigneeName details dueDate sessionUid now : String) :
    Fields :=
  [("title", stringField title),
   ("status", stringField "Open"),
   ("assigneeId", stringField assigneeId),
   ("assigneeName", stringField assigneeName),
   ("details", stringField details),
   ("dueDate", stringField dueDate),
   ("coinValue", integerField 10),
   ("deleted", boolField false),
   ("createdBy", stringField sessionUid),
   ("createdAt", timestampField now)]

inductive ChoresCreateResult where
  | familyNotFound
  | ok (created : Nat)
  deriving DecidableEq, Repr

/-- The work closure of the chore-creation POST handler, over the store.
The Promise.all batches are modelled sequentially; the fresh random ids for
the chore documents are passed in. -/
def choresCreateWork (parseNum : String → Option ℚ) (sessionUid : String)
    (titles : List String) (assigneeId details dueDate now : String)
    (uuids : List String) (store : Store) :
    Except String (ChoresCreateResult × Store) := do
  let familyId ← getPrimaryFamilyId sessionUid store
  if familyId = "" then return (.familyNotFound, store)
  let resolvedAssigneeName ←
    if assigneeId ≠ "" then getFamilyMemberName familyId assigneeId store
    else pure "Unassigned"
  let store1 := (titles.zip uuids).foldl
    (fun st p =>
      setDoc st (.chore familyId p.2)
        (choreFields p.1 assigneeId resolvedAssigneeName details dueDate sessionUid now))
    store
  let store2 ← titles.foldlM
    (fun st title => do
      let st1 ← incrementUsageCount parseNum (.choreUsage familyId (usageKey title))
        title "familyCount" now st
      incrementUsageCount parseNum (.choreUsageGlobal (usageKey title))
        title "globalCount" now st1)
    store1
  return (.ok titles.length, store2)

/-- mapCommonFirestoreErrors of the chores route. -/
def mapCommonFirestoreErrors (reason : String) : Option ApiResponse :=
  if strIncludes reason "FIRESTORE_HTTP_401" then some ⟨401, some "reauth_required"⟩
  else if strIncludes reason "FIREBASE_REFRESH_FAILED" then some ⟨401, some "reauth_required"⟩
  else if strIncludes reason "FIRESTORE_HTTP_403" then some ⟨403, some "firestore_forbidden"⟩
  else none

/-- The chore-creation POST handler: session guards, JSON body guard,
payload validation, then the work run through the refresh wrapper, and the
response mapping (including the catch block).  Returns the response and the
resulting store. -/
def choresPOST (parseNum : String → Option ℚ) (apiKey : Option String)
    (session : Option SessionUser) (body : Option CreateChoresBody)
    (uuids : List String) (now today : String)
    (refreshResponse : RefreshHttpResponse) (store : Store) :
    ApiResponse × Store :=
  match session with
  | none => (⟨401, some "unauthorized"⟩, store)
  | some s =>
    if s.uid = "" then (⟨401, some "unauthorized"⟩, store)
    else if jsFalsyOpt s.firebaseIdToken ∧ jsFalsyOpt s.firebaseRefreshToken then
      (⟨401, some "reauth_required"⟩, store)
    else
      match body with
      | none => (⟨400, some "invalid_json"⟩, store)
      | some b =>
        let dueDate := asDateOrToday b.dueDate today
        let details :=
          match b.details with
          | .str s => if s.trim.length > 0 then (s.trim).take 2000 else ""
          | _ => ""
        let assigneeId :=
          match b.assigneeId with
          | .str s => if s.trim.length > 0 then s.trim else ""
          | _ => ""
        let titles := computeTitles b
        if titles.length = 0 then (⟨400, some "description_required"⟩, store)
        else if titles.any (fun title => title.length > 160) then
          (⟨400, some "description_too_long"⟩, store)
        else
          match runWithRefreshedFirebaseToken apiKey s
            (fun _idToken =>
              choresCreateWork parseNum s.uid titles assigneeId details dueDate now uuids store)
            refreshResponse with
          | .ok (data, _sess, _refreshed) =>
            match data with
            | (.familyNotFound, st) => (⟨404, some "family_not_found"⟩, st)
            | (.ok _, st) => (⟨201, none⟩, st)
          | .error e =>
            match mapCommonFirestoreErrors (e.take 180) with
            | some r => (r, store)
            | none => (⟨500, some "create_chores_failed"⟩, store)

/-! ## Helper lemmas -/

lemma splitOnChar_not_mem (sep : Char) (l : List Char) (h : sep ∉ l) :
    splitOnChar sep l = [l] := by
  induction l with
  | nil => rfl
  | cons c rest ih =>
    have hc : c ≠ sep := fun hcs => h (hcs ▸ List.mem_cons_self c rest)
    have hrest : sep ∉ rest := fun hr => h (List.mem_cons_of_mem c hr)
    simp only [splitOnChar, if_neg hc, ih hrest]

lemma splitOnChar_append_sep (sep : Char) (p s : List Char) (hp : sep ∉ p) :
    splitOnChar sep (p ++ sep :: s) = p :: splitOnChar sep s := by
  induction p with
  | nil => simp [splitOnChar]
  | cons c rest ih =>
    have hc : c ≠ sep := fun hcs => hp (hcs ▸ List.mem_cons_self c rest)
    have hrest : sep ∉ rest := fun hr => hp (List.mem_cons_of_mem c hr)
    show splitOnChar sep (c :: (rest ++ sep :: s)) = (c :: rest) :: splitOnChar sep s
    simp only [splitOnChar, if_neg hc]
    rw [ih hrest]

lemma string_mk_data (s : String) : String.mk s.data = s := rfl

lemma jsSplitDot_two (p s : String) (hp : '.' ∉ p.data) (hs : '.' ∉ s.data) :
    jsSplitDot (p ++ "." ++ s) = [p, s] := by
  have hdata : (p ++ "." ++ s).data = p.data ++ '.' :: s.data := by
    rw [String.data_append, String.data_append, List.append_assoc]
    rfl
  unfold jsSplitDot
  rw [hdata, splitOnChar_append_sep '.' p.data s.data hp,
    splitOnChar_not_mem '.' s.data hs]
  simp [string_mk_data]

lemma getField_upsertField_self (fields : Fields) (key : String)
    (value : FirestoreValue) :
    getField (upsertField fields key value) key = some value := by
  induction fields with
  | nil => simp [upsertField, getField]
  | cons kv rest ih =>
    obtain ⟨k, v⟩ := kv
    by_cases hk : k = key
    · subst hk
      simp [upsertField, getField]
    · have hk' : ¬ key = k := fun hkk => hk hkk.symm
      simp [upsertField, getField, hk, hk', ih]

lemma getField_upsertField_ne (fields : Fields) (key key' : String)
    (value : FirestoreValue) (h : key' ≠ key) :
    getField (upsertField fields key value) key' = getField fields key' := by
  induction fields with
  | nil => simp [upsertField, getField, h]
  | cons kv rest ih =>
    obtain ⟨k, v⟩ := kv
    by_cases hk : k = key
    · subst hk
      simp [upsertField, getField, h]
    · by_cases hk2 : key' = k
      · simp [upsertField, getField, hk, hk2]
      · simp [upsertField, getField, hk, hk2, ih]

lemma findDoc_setDoc_self (store : Store) (path : DocPath) (fields : Fields) :
    findDoc (setDoc store path fields) path = some fields := by
  induction store with
  | nil => simp [setDoc, findDoc]
  | cons kv rest ih =>
    obtain ⟨q, f⟩ := kv
    by_cases hq : q = path
    · subst hq
      simp [setDoc, findDoc]
    · have hq' : ¬ path = q := fun hqq => hq hqq.symm
      simp [setDoc, findDoc, hq, hq', ih]

lemma findDoc_setDoc_ne (store : Store) (path other : DocPath) (fields : Fields)
    (h : path ≠ other) :
    findDoc (setDoc store other fields) path = findDoc store path := by
  induction store with
  | nil => simp [setDoc, findDoc, h]
  | cons kv rest ih =>
    obtain ⟨q, f⟩ := kv
    by_cases hq : q = other
    · subst hq
      simp [setDoc, findDoc, h]
    · by_cases hq2 : path = q
      · simp [setDoc, findDoc, hq, hq2]
      · simp [setDoc, findDoc, hq, hq2, ih]

/-! ## Claim theorems -/

/-- C7: for every fields record and key, readString returns the empty string
when the field is absent or not a stringValue; readBoolean returns false when
the field is absent or neither a booleanValue nor the string true; readInteger
returns 0 when the field is absent or its integerValue/stringValue does not
parse to a finite number; readStringArray returns the empty list when the
field is absent or not an arrayValue. -/
theorem read_helpers_default (parseNum : String → Option ℚ)
    (fields : Option Fields) (key : String) :
    (getFieldOpt fields key = none →
      readString fields key = "" ∧ readBoolean fields key = false ∧
        readInteger parseNum fields key = 0 ∧ readStringArray fields key = []) ∧
    (∀ v, getFieldOpt fields key = some v →
      ((∀ s, v ≠ .stringValue s) → readString fields key = "") ∧
      ((∀ b, v ≠ .booleanValue b) → v ≠ .stringValue "true" →
        readBoolean fields key = false) ∧
      ((∀ s, v = .integerValue s ∨ v = .stringValue s → parseNum s = none) →
        readInteger parseNum fields key = 0) ∧
      ((∀ l, v ≠ .arrayValue l) → readStringArray fields key = [])) := by
  constructor
  · intro h
    simp [readString, readBoolean, readInteger, readStringArray, h]
  · intro v hv
    refine ⟨?_, ?_, ?_, ?_⟩
    · intro hns
      unfold readString
      rw [hv]
      cases v with
      | stringValue s => exact absurd rfl (hns s)
      | _ => rfl
    · intro hnb hnt
      unfold readBoolean
      rw [hv]
      cases v with
      | booleanValue b => exact absurd rfl (hnb b)
      | stringValue s =>
        have : s ≠ "true" := fun hst => hnt (by rw [hst])
        simp [this]
      | _ => rfl
    · intro hnp
      unfold readInteger
      rw [hv]
      cases v with
      | integerValue s => simp [hnp s (Or.inl rfl)]
      | stringValue s => simp [hnp s (Or.inr rfl)]
      | _ => rfl
    · intro hna
      unfold readStringArray
      rw [hv]
      cases v with
      | arrayValue l => exact absurd rfl (hna l)
      | _ => rfl

/-- C7 witness: a booleanValue field reads back as empty string, zero and
empty list through the non-boolean helpers, and a missing field defaults
everywhere. -/
theorem read_helpers_default_witness :
    readString (some [("k", FirestoreValue.booleanValue true)]) "k" = "" ∧
      readInteger (fun _ => none) (some [("k", FirestoreValue.booleanValue true)]) "k" = 0 ∧
      readBoolean (some [("k", FirestoreValue.stringValue "false")]) "k" = false ∧
      readStringArray none "missing" = [] := by
  refine ⟨?_, ?_, ?_, ?_⟩
  · exact ((read_helpers_default (fun _ => none)
      (some [("k", FirestoreValue.booleanValue true)]) "k").2
      (FirestoreValue.booleanValue true) rfl).1 (by intro s h; cases h)
  · exact ((read_helpers_default (fun _ => none)
      (some [("k", FirestoreValue.booleanValue true)]) "k").2
      (FirestoreValue.booleanValue true) rfl).2.2.1
      (by intro s h; rcases h with h | h <;> cases h)
  · exact ((read_helpers_default (fun _ => none)
      (some [("k", FirestoreValue.stringValue "false")]) "k").2
      (FirestoreValue.stringValue "false") rfl).2.1
      (by intro b h; cases h)
      (by intro h; injection h with h2; exact absurd h2 (by decide))
  · exact ((read_helpers_default (fun _ => none) none "missing").1 rfl).2.2.2

/-- C8: on a non-OK response, requestFirestore and deleteDocument throw an
error whose message is FIRESTORE_HTTP_ followed by the status code,
optionally suffixed by an underscore and the server error detail; on an OK
response requestFirestore returns the parsed JSON body without raising and
deleteDocument returns without raising. -/
theorem firestore_http_error_tagging (α : Type) (response : HttpResponse α)
    (delResponse : HttpResponse Unit) :
    (response.ok = false →
      ∃ suffix, (suffix = "" ∨ suffix = "_" ++ firestoreErrorDetail response) ∧
        requestFirestore response =
          .error ("FIRESTORE_HTTP_" ++ toString response.status ++ suffix)) ∧
    (response.ok = true → ∀ b, response.body = some b →
      requestFirestore response = .ok b) ∧
    (delResponse.ok = false →
      ∃ suffix, (suffix = "" ∨ suffix = "_" ++ firestoreErrorDetail delResponse) ∧
        deleteDocument delResponse =
          .error ("FIRESTORE_HTTP_" ++ toString delResponse.status ++ suffix)) ∧
    (delResponse.ok = true → deleteDocument delResponse = .ok ()) := by
  refine ⟨?_, ?_, ?_, ?_⟩
  · intro h
    refine ⟨if firestoreErrorDetail response = "" then ""
        else "_" ++ firestoreErrorDetail response, ?_, ?_⟩
    · by_cases hd : firestoreErrorDetail response = "" <;> simp [hd]
    · simp [requestFirestore, firestoreErrorMessage, h]
  · intro h b hb
    simp [requestFirestore, h, hb]
  · intro h
    refine ⟨if firestoreErrorDetail delResponse = "" then ""
        else "_" ++ firestoreErrorDetail delResponse, ?_, ?_⟩
    · by_cases hd : firestoreErrorDetail delResponse = "" <;> simp [hd]
    · simp [deleteDocument, firestoreErrorMessage, h]
  · intro h
    simp [deleteDocument, h]

/-- C8 witness: a 401 response throws a message tagged with the status, and
an OK response returns its body. -/
theorem firestore_http_error_tagging_witness :
    (∃ suffix,
      (suffix = "" ∨
        suffix = "_" ++ firestoreErrorDetail
          (α := Nat) ⟨false, 401, some "UNAUTHENTICATED", "", none⟩) ∧
      requestFirestore (α := Nat) ⟨false, 401, some "UNAUTHENTICATED", "", none⟩ =
        .error ("FIRESTORE_HTTP_" ++ toString 401 ++ suffix)) ∧
    requestFirestore (α := Nat) ⟨true, 200, none, "", some 7⟩ = .ok 7 ∧
    deleteDocument ⟨true, 200, none, "", some ()⟩ = .ok () :=
  ⟨(firestore_http_error_tagging Nat
      ⟨false, 401, some "UNAUTHENTICATED", "", none⟩
      ⟨true, 200, none, "", some ()⟩).1 rfl,
   (firestore_http_error_tagging Nat ⟨true, 200, none, "", some 7⟩
      ⟨true, 200, none, "", some ()⟩).2.1 rfl 7 rfl,
   (firestore_http_error_tagging Nat ⟨true, 200, none, "", some 7⟩
      ⟨true, 200, none, "", some ()⟩).2.2.2 rfl⟩

/-- C10: integerField produces the decimal string of max(0, floor(v)), a
non-negative integer; the chore-creation fields carry coinValue =
integerField(10), and a successful usage increment writes the usage counter
as integerField(currentCount + 1) — so every such counter is non-negative. -/
theorem integerField_nonneg (title assigneeId assigneeName details dueDate
    sessionUid now : String) (parseNum : String → Option ℚ) (path : DocPath)
    (description usageField now2 : String) (store store' : Store)
    (husage : usageField = "familyCount" ∨ usageField = "globalCount") :
    (∀ v : ℚ, integerField v = .integerValue (toString (max 0 ⌊v⌋)) ∧
      ∃ n : ℕ, integerField v = .integerValue (toString (n : ℤ))) ∧
    getField (choreFields title assigneeId assigneeName details dueDate sessionUid now)
      "coinValue" = some (integerField 10) ∧
    (incrementUsageCount parseNum path description usageField now2 store = .ok store' →
      ∃ currentCount : ℚ,
        getField ((findDoc store' path).getD []) usageField =
          some (integerField (currentCount + 1))) := by
  refine ⟨?_, ?_, ?_⟩
  · intro v
    refine ⟨rfl, (max 0 ⌊v⌋).toNat, ?_⟩
    unfold integerField
    rw [Int.toNat_of_nonneg (le_max_left 0 ⌊v⌋)]
  · rfl
  · intro h
    unfold incrementUsageCount at h
    cases hget : getDocumentS path store with
    | ok fields =>
      rw [hget] at h
      simp only [bind, Except.bind, pure, Except.pure] at h
      injection h with h
      refine ⟨readInteger parseNum (some fields) usageField, ?_⟩
      rw [← h, findDoc_setDoc_self]
      rcases husage with hu | hu <;> subst hu <;> rfl
    | error reason =>
      rw [hget] at h
      by_cases h404 : strIncludes reason "FIRESTORE_HTTP_404"
      · simp only [h404, if_pos, bind, Except.bind, pure, Except.pure] at h
        injection h with h
        refine ⟨0, ?_⟩
        rw [← h, findDoc_setDoc_self]
        rcases husage with hu | hu <;> subst hu <;> rfl
      · simp only [h404, bind, Except.bind, pure, Except.pure] at h
        cases h

/-- C10 witness: incrementing a missing global usage counter writes
integerValue 1, and integerField of a negative number is integerValue 0. -/
theorem integerField_nonneg_witness :
    integerField (-3) = .integerValue (toString (max 0 ⌊(-3 : ℚ)⌋)) ∧
    (∃ currentCount : ℚ,
      getField ((findDoc
        ((incrementUsageCount (fun _ => none) (.choreUsageGlobal "wash-dishes")
          "Wash dishes" "globalCount" "2026-01-01T00:00:00Z" []).toOption.getD [])
        (.choreUsageGlobal "wash-dishes")).getD []) "globalCount" =
          some (integerField (currentCount + 1))) := by
  constructor
  · exact ((integerField_nonneg "" "" "" "" "" "" "" (fun _ => none)
      (.choreUsageGlobal "wash-dishes") "Wash dishes" "globalCount"
      "2026-01-01T00:00:00Z" [] [] (Or.inr rfl)).1 (-3)).1
  · exact (integerField_nonneg "" "" "" "" "" "" "" (fun _ => none)
      (.choreUsageGlobal "wash-dishes") "Wash dishes" "globalCount"
      "2026-01-01T00:00:00Z" []
      ((incrementUsageCount (fun _ => none) (.choreUsageGlobal "wash-dishes")
        "Wash dishes" "globalCount" "2026-01-01T00:00:00Z" []).toOption.getD [])
      (Or.inr rfl)).2.2 rfl

/-- C6: parseSessionToken is total and never throws.  The exception-explicit
embedding parseSessionTokenE (in which timingSafeEqual throws on buffers of
unequal byte length and the payload decode throw is caught) always returns
.ok of the value of parseSessionToken, for every hmac, decoder, secret
configuration, time and token. -/
theorem parseSessionToken_never_throws (hmac : String → String → String)
    (decode : String → Option SessionPayload) (env : Option String)
    (now : Int) (token : Option String) :
    parseSessionTokenE hmac decode env now token =
      .ok (parseSessionToken hmac decode env now token) := by
  unfold parseSessionToken parseSessionTokenE
  cases getSecret env with
  | none => rfl
  | some secret =>
    cases token with
    | none => rfl
    | some tok =>
      by_cases htok : tok = ""
      · simp [htok]
      · simp only [if_neg htok]
        cases (jsSplitDot tok).get? 0 with
        | none => rfl
        | some encodedPayload =>
          cases (jsSplitDot tok).get? 1 with
          | none => rfl
          | some providedSig =>
            by_cases hemp : encodedPayload = "" ∨ providedSig = ""
            · simp only [if_pos hemp]
            · simp only [if_neg hemp]
              by_cases hlen :
                  (hmac secret encodedPayload).utf8ByteSize = providedSig.utf8ByteSize
              · have hne : ¬ (hmac secret encodedPayload).utf8ByteSize ≠
                    providedSig.utf8ByteSize := by simpa using hlen
                simp only [if_neg hne, timingSafeEqual, if_pos hlen, bind,
                  Except.bind]
                by_cases heq : hmac secret encodedPayload = providedSig
                · have hcond : ¬ ((hmac secret encodedPayload).utf8ByteSize ≠
                      providedSig.utf8ByteSize ∨
                      hmac secret encodedPayload ≠ providedSig) := by
                    simp [hlen, heq]
                  have hbeq : (hmac secret encodedPayload == providedSig) = true := by
                    simp [heq]
                  simp only [if_neg hcond, hbeq, Bool.not_true, Bool.false_eq_true,
                    if_false]
                  cases hdec : decode encodedPayload with
                  | none => rfl
                  | some parsed =>
                    by_cases hexp : expiryRejects parsed.exp now = true
                    · simp [hexp]
                    · simp [hexp]
                · have hcond : (hmac secret encodedPayload).utf8ByteSize ≠
                      providedSig.utf8ByteSize ∨
                      hmac secret encodedPayload ≠ providedSig := Or.inr heq
                  simp only [if_pos hcond]
                  have hbeq : (hmac secret encodedPayload == providedSig) = false := by
                    simp [heq]
                  simp [hbeq]
              · have hne : (hmac secret encodedPayload).utf8ByteSize ≠
                    providedSig.utf8ByteSize := hlen
                have hcond : (hmac secret encodedPayload).utf8ByteSize ≠
                    providedSig.utf8ByteSize ∨
                    hmac secret encodedPayload ≠ providedSig := Or.inl hne
                simp only [if_pos hcond, if_pos hne]

lemma append_dot_ne_empty (p s : String) : p ++ "." ++ s ≠ "" := by
  intro h
  have hlen := congrArg String.length h
  rw [String.length_append, String.length_append] at hlen
  rw [show (".".length) = 1 from rfl, show ("".length) = 0 from rfl] at hlen
  omega

/-- Evaluation of parseSessionToken on a token of the form payload.signature
(neither part empty nor containing a dot) under a configured secret. -/
lemma parseSessionToken_two_part (hmac : String → String → String)
    (decode : String → Option SessionPayload) (env : Option String)
    (now : Int) (secret p s : String)
    (hsec : getSecret env = some secret) (hp : p ≠ "") (hs : s ≠ "")
    (hpd : '.' ∉ p.data) (hsd : '.' ∉ s.data) :
    parseSessionToken hmac decode env now (some (p ++ "." ++ s)) =
      if hmac secret p = s then
        (match decode p with
         | none => none
         | some parsed =>
           if expiryRejects parsed.exp now then none
           else some { uid := parsed.uid, role := parsed.role,
                       email := parsed.email, name := parsed.name,
                       picture := parsed.picture,
                       firebaseIdToken := parsed.firebaseIdToken,
                       firebaseRefreshToken := parsed.firebaseRefreshToken })
      else none := by
  have htok := append_dot_ne_empty p s
  simp only [parseSessionToken, hsec, if_neg htok]
  rw [jsSplitDot_two p s hpd hsd]
  simp only [List.get?]
  have hemp : ¬ (p = "" ∨ s = "") := by
    rintro (h | h)
    · exact hp h
    · exact hs h
  simp only [if_neg hemp]
  by_cases heq : hmac secret p = s
  · have hcond : ¬ ((hmac secret p).utf8ByteSize ≠ s.utf8ByteSize ∨
        hmac secret p ≠ s) := by simp [heq]
    simp only [if_neg hcond, if_pos heq]
  · have hcond : (hmac secret p).utf8ByteSize ≠ s.utf8ByteSize ∨
        hmac secret p ≠ s := Or.inr heq
    simp only [if_pos hcond, if_neg heq]

/-- C1: a token payload.signature whose signature component is not the HMAC
of the payload component under the configured session secret parses as
null. -/
theorem tampered_signature_parses_null (hmac : String → String → String)
    (decode : String → Option SessionPayload) (env : Option String)
    (now : Int) (secret p s : String)
    (hsec : getSecret env = some secret) (hp : p ≠ "") (hs : s ≠ "")
    (hpd : '.' ∉ p.data) (hsd : '.' ∉ s.data)
    (htamper : s ≠ hmac secret p) :
    parseSessionToken hmac decode env now (some (p ++ "." ++ s)) = none := by
  rw [parseSessionToken_two_part hmac decode env now secret p s hsec hp hs hpd hsd]
  rw [if_neg (fun h => htamper h.symm)]

/-- C1 witness: under a configured 32-character secret and a concrete keyed
hash, a two-part token with a wrong signature parses as null. -/
theorem tampered_signature_parses_null_witness :
    parseSessionToken (fun secret v => secret ++ v) (fun _ => none)
      (some "0123456789abcdef0123456789abcdef") 0 (some ("payload" ++ "." ++ "sig")) =
      none :=
  tampered_signature_parses_null (fun secret v => secret ++ v) (fun _ => none)
    (some "0123456789abcdef0123456789abcdef") 0
    "0123456789abcdef0123456789abcdef" "payload" "sig" rfl
    (by decide) (by decide) (by decide) (by decide) (by decide)

/-- C2: a correctly signed token whose decoded payload has an exp that is
absent, zero, or strictly below the current Unix time parses as null. -/
theorem expired_token_parses_null (hmac : String → String → String)
    (decode : String → Option SessionPayload) (env : Option String)
    (now : Int) (secret p : String) (payload : SessionPayload)
    (hsec : getSecret env = some secret) (hp : p ≠ "")
    (hpd : '.' ∉ p.data)
    (hsne : hmac secret p ≠ "") (hsnd : '.' ∉ (hmac secret p).data)
    (hdec : decode p = some payload)
    (hexp : payload.exp = none ∨ payload.exp = some 0 ∨
      ∃ e, payload.exp = some e ∧ e < now) :
    parseSessionToken hmac decode env now (some (p ++ "." ++ hmac secret p)) =
      none := by
  rw [parseSessionToken_two_part hmac decode env now secret p (hmac secret p)
    hsec hp hsne hpd hsnd]
  rw [if_pos rfl, hdec]
  have hrej : expiryRejects payload.exp now = true := by
    rcases hexp with h | h | ⟨e, he, hlt⟩
    · simp [expiryRejects, h]
    · simp [expiryRejects, h]
    · simp [expiryRejects, he]
      omega
  simp [hrej]

/-- C2 witness: a correctly signed token with exp = 5 parses as null at
time 6. -/
theorem expired_token_parses_null_witness :
    parseSessionToken (fun secret v => secret ++ v)
      (fun _ => some ⟨"u", "admin", "e", "n", "p", none, none, some 5⟩)
      (some "0123456789abcdef0123456789abcdef") 6
      (some ("payload" ++ "." ++
        (fun (secret v : String) => secret ++ v) "0123456789abcdef0123456789abcdef" "payload")) =
      none :=
  expired_token_parses_null (fun secret v => secret ++ v)
    (fun _ => some ⟨"u", "admin", "e", "n", "p", none, none, some 5⟩)
    (some "0123456789abcdef0123456789abcdef") 6
    "0123456789abcdef0123456789abcdef" "payload"
    ⟨"u", "admin", "e", "n", "p", none, none, some 5⟩ rfl
    (by decide) (by decide) (by decide) (by decide) rfl
    (Or.inr (Or.inr ⟨5, rfl, by omega⟩))

/-- C9: under a configured secret, a created session token parses back to
the same SessionUser at any time before the 7-day expiry, given the
serialization primitives invert (the base64url payload is non-empty and
dot-free, as is the base64url HMAC digest, and decoding the encoded payload
returns it). -/
theorem session_codec_roundtrip (hmac : String → String → String)
    (encode : SessionPayload → String) (decode : String → Option SessionPayload)
    (env : Option String) (secret : String) (user : SessionUser)
    (createNow parseNow : Int) (payload : SessionPayload)
    (hsec : getSecret env = some secret)
    (hpayload : payload =
      { uid := user.uid, role := user.role, email := user.email,
        name := user.name, picture := user.picture,
        firebaseIdToken := user.firebaseIdToken,
        firebaseRefreshToken := user.firebaseRefreshToken,
        exp := some (createNow + SESSION_MAX_AGE_SECONDS) })
    (hence : encode payload ≠ "") (hencd : '.' ∉ (encode payload).data)
    (hsige : hmac secret (encode payload) ≠ "")
    (hsigd : '.' ∉ (hmac secret (encode payload)).data)
    (hrt : decode (encode payload) = some payload)
    (hcreate : 0 ≤ createNow)
    (hbefore : parseNow < createNow + SESSION_MAX_AGE_SECONDS) :
    ∃ token, createSessionToken hmac encode env createNow user = some token ∧
      parseSessionToken hmac decode env parseNow (some token) = some user := by
  refine ⟨encode payload ++ "." ++ hmac secret (encode payload), ?_, ?_⟩
  · simp only [createSessionToken, hsec]
    rw [← hpayload]
  · rw [parseSessionToken_two_part hmac decode env parseNow secret
      (encode payload) (hmac secret (encode payload)) hsec hence hsige hencd hsigd]
    rw [if_pos rfl, hrt]
    have hrej : expiryRejects (some (createNow + SESSION_MAX_AGE_SECONDS))
        parseNow = false := by
      simp only [expiryRejects, SESSION_MAX_AGE_SECONDS] at *
      simp only [Bool.or_eq_false_iff, decide_eq_false_iff_not]
      constructor
      · omega
      · omega
    rw [hpayload]
    simp only [hrej, Bool.false_eq_true, if_false]

/-- C9 witness: a concrete user round-trips through the codec with concrete
serialization primitives, created at time 0 and parsed at time 100. -/
theorem session_codec_roundtrip_witness :
    ∃ token,
      createSessionToken (fun _ _ => "SIG") (fun _ => "ENC")
        (some "0123456789abcdef0123456789abcdef") 0
        ⟨"u1", "admin", "a@b.c", "Name", "pic", some "idtok", some "rtok"⟩ =
        some token ∧
      parseSessionToken (fun _ _ => "SIG")
        (fun s => if s = "ENC" then
          some ⟨"u1", "admin", "a@b.c", "Name", "pic", some "idtok", some "rtok",
            some (0 + SESSION_MAX_AGE_SECONDS)⟩ else none)
        (some "0123456789abcdef0123456789abcdef") 100 (some token) =
        some ⟨"u1", "admin", "a@b.c", "Name", "pic", some "idtok", some "rtok"⟩ :=
  session_codec_roundtrip (fun _ _ => "SIG") (fun _ => "ENC")
    (fun s => if s = "ENC" then
      some ⟨"u1", "admin", "a@b.c", "Name", "pic", some "idtok", some "rtok",
        some (0 + SESSION_MAX_AGE_SECONDS)⟩ else none)
    (some "0123456789abcdef0123456789abcdef")
    "0123456789abcdef0123456789abcdef"
    ⟨"u1", "admin", "a@b.c", "Name", "pic", some "idtok", some "rtok"⟩ 0 100
    ⟨"u1", "admin", "a@b.c", "Name", "pic", some "idtok", some "rtok",
      some (0 + SESSION_MAX_AGE_SECONDS)⟩
    rfl rfl (by decide) (by decide) (by decide) (by decide)
    (by simp) (by decide) (by decide)

/-- C5: an authenticated chore-creation POST whose body yields an empty
titles list (no non-empty description and no usable titles entry) returns
400 with error description_required and leaves the store untouched — no
Firestore write happens. -/
theorem empty_description_rejected (parseNum : String → Option ℚ)
    (apiKey : Option String) (s : SessionUser) (b : CreateChoresBody)
    (uuids : List String) (now today : String)
    (refreshResponse : RefreshHttpResponse) (store : Store)
    (huid : s.uid ≠ "")
    (htok : ¬ (jsFalsyOpt s.firebaseIdToken ∧ jsFalsyOpt s.firebaseRefreshToken))
    (htitles : computeTitles b = []) :
    choresPOST parseNum apiKey (some s) (some b) uuids now today
      refreshResponse store = (⟨400, some "description_required"⟩, store) := by
  simp only [choresPOST, if_neg huid, if_neg htok, htitles]
  rfl

/-- C5 witness: a session with tokens and a body whose titles are blank
strings is rejected with description_required, with the store unchanged. -/
theorem empty_description_rejected_witness :
    choresPOST (fun _ => none) none
      (some ⟨"u1", "admin", "a@b.c", "Name", "pic", some "idtok", some "rtok"⟩)
      (some ⟨JSVal.undef, JSVal.undef, JSVal.undef,
        JSVal.arr [JSVal.str "   ", JSVal.other], JSVal.undef⟩)
      [] "2026-01-01T00:00:00Z" "2026-01-01" ⟨true, 200, none, "", "", ""⟩ [] =
      (⟨400, some "description_required"⟩, []) :=
  empty_description_rejected (fun _ => none) none
    ⟨"u1", "admin", "a@b.c", "Name", "pic", some "idtok", some "rtok"⟩
    ⟨JSVal.undef, JSVal.undef, JSVal.undef,
      JSVal.arr [JSVal.str "   ", JSVal.other], JSVal.undef⟩
    [] "2026-01-01T00:00:00Z" "2026-01-01" ⟨true, 200, none, "", "", ""⟩ []
    (by decide) (by decide) rfl

lemma attemptCalls_length_le (t : Option String) : (attemptCalls t).length ≤ 1 := by
  unfold attemptCalls
  by_cases h : jsFalsyOpt t <;> simp [h]

lemma attemptCalls_some_ne (t : String) (h : t ≠ "") :
    attemptCalls (some t) = [t] := by
  simp [attemptCalls, jsFalsyOpt, h]

lemma attemptWork_some_ne {α : Type} (work : String → Except String α)
    (t : String) (h : t ≠ "") : attemptWork work (some t) = work t := by
  simp [attemptWork, jsFalsyOpt, h]

lemma attemptCalls_cases (t : Option String) :
    attemptCalls t = [] ∨ ∃ x, t = some x ∧ x ≠ "" ∧ attemptCalls t = [x] := by
  cases t with
  | none => exact Or.inl rfl
  | some x =>
    by_cases h : x = ""
    · exact Or.inl (by simp [attemptCalls, jsFalsyOpt, h])
    · exact Or.inr ⟨x, rfl, h, attemptCalls_some_ne x h⟩


lemma refreshFirebaseSession_ok (apiKey : Option String) (session : SessionUser)
    (resp : RefreshHttpResponse) (rs : SessionUser)
    (h : refreshFirebaseSession apiKey session resp = .ok rs) :
    rs.firebaseIdToken = some resp.id_token ∧ resp.user_id = session.uid := by
  unfold refreshFirebaseSession at h
  by_cases h1 : jsFalsyOpt apiKey
  · rw [if_pos h1] at h
    cases h
  rw [if_neg h1] at h
  by_cases h2 : jsFalsyOpt session.firebaseRefreshToken
  · rw [if_pos h2] at h
    cases h
  rw [if_neg h2] at h
  by_cases h3 : resp.ok
  · have h3' : (!resp.ok) = false := by simp [h3]
    rw [h3'] at h
    simp only [Bool.false_eq_true, if_false] at h
    by_cases h4 : resp.user_id = session.uid
    · rw [if_neg (fun hne : resp.user_id ≠ session.uid => hne h4)] at h
      injection h with h
      exact ⟨by rw [← h], h4⟩
    · rw [if_pos h4] at h
      cases h
  · have h3' : (!resp.ok) = true := by simp [h3]
    rw [h3'] at h
    simp only [if_true] at h
    cases h

lemma refreshFirebaseSession_mismatch (apiKey : Option String)
    (session : SessionUser) (resp : RefreshHttpResponse)
    (h1 : jsFalsyOpt apiKey = false)
    (h2 : jsFalsyOpt session.firebaseRefreshToken = false)
    (h3 : resp.ok = true) (h4 : resp.user_id ≠ session.uid) :
    refreshFirebaseSession apiKey session resp =
      .error "FIREBASE_REFRESH_UID_MISMATCH" := by
  unfold refreshFirebaseSession
  simp [h1, h2, h3, h4]

/-- C3: the refresh wrapper invokes the wrapped work at most twice; the
first invocation uses the current session ID token; a failure of the
first attempt that is neither a FIRESTORE_HTTP_401 message nor a missing ID
token is propagated unchanged with no retry; a refresh response whose
user_id differs from the session uid yields the fatal
FIREBASE_REFRESH_UID_MISMATCH error with no retry; any second invocation
uses the exchanged id_token; and a second invocation happens only when the
first attempt failed with an unauthorized signal. -/
theorem refresh_wrapper_retry_discipline (α : Type) (apiKey : Option String)
    (session : SessionUser) (work : String → Except String α)
    (resp : RefreshHttpResponse) :
    ((runWithRefreshedFirebaseTokenTr apiKey session work resp).2.length ≤ 2) ∧
    (∀ t, session.firebaseIdToken = some t → t ≠ "" →
      (runWithRefreshedFirebaseTokenTr apiKey session work resp).2.head? = some t) ∧
    (∀ t e, session.firebaseIdToken = some t → t ≠ "" → work t = .error e →
      isFirestoreUnauthorizedError e = false → e ≠ "MISSING_FIREBASE_ID_TOKEN" →
      (runWithRefreshedFirebaseTokenTr apiKey session work resp).1 = .error e ∧
        (runWithRefreshedFirebaseTokenTr apiKey session work resp).2 = [t]) ∧
    (∀ t e, session.firebaseIdToken = some t → t ≠ "" → work t = .error e →
      isFirestoreUnauthorizedError e = true → jsFalsyOpt apiKey = false →
      jsFalsyOpt session.firebaseRefreshToken = false → resp.ok = true →
      resp.user_id ≠ session.uid →
      (runWithRefreshedFirebaseTokenTr apiKey session work resp).1 =
        .error "FIREBASE_REFRESH_UID_MISMATCH" ∧
        (runWithRefreshedFirebaseTokenTr apiKey session work resp).2 = [t]) ∧
    (∀ t2, (runWithRefreshedFirebaseTokenTr apiKey session work resp).2.get? 1 =
        some t2 → t2 = resp.id_token) ∧
    ((runWithRefreshedFirebaseTokenTr apiKey session work resp).2.length = 2 →
      ∃ t e, session.firebaseIdToken = some t ∧ t ≠ "" ∧ work t = .error e ∧
        (isFirestoreUnauthorizedError e = true ∨ e = "MISSING_FIREBASE_ID_TOKEN")) := by
  unfold runWithRefreshedFirebaseTokenTr
  by_cases hguard : jsFalsyOpt session.firebaseIdToken ∧
      jsFalsyOpt session.firebaseRefreshToken
  · simp only [if_pos hguard]
    refine ⟨by simp, ?_, ?_, ?_, ?_, by simp⟩
    · intro t ht hne
      rw [ht] at hguard
      simp [jsFalsyOpt, hne] at hguard
    · intro t e ht hne _ _ _
      rw [ht] at hguard
      simp [jsFalsyOpt, hne] at hguard
    · intro t e ht hne _ _ _ _ _ _
      rw [ht] at hguard
      simp [jsFalsyOpt, hne] at hguard
    · intro t2 h2
      simp at h2
  · simp only [if_neg hguard]
    cases hatt : attemptWork work session.firebaseIdToken with
    | ok d =>
      try dsimp only
      refine ⟨le_trans (attemptCalls_length_le _) (by omega), ?_, ?_, ?_, ?_, ?_⟩
      · intro t ht hne
        rw [ht, attemptCalls_some_ne t hne]
        rfl
      · intro t e ht hne hwork _ _
        rw [ht, attemptWork_some_ne work t hne, hwork] at hatt
        cases hatt
      · intro t e ht hne hwork _ _ _ _ _
        rw [ht, attemptWork_some_ne work t hne, hwork] at hatt
        cases hatt
      · intro t2 h2
        rcases attemptCalls_cases session.firebaseIdToken with hc | ⟨x, _, _, hc⟩ <;>
          rw [hc] at h2 <;> simp at h2
      · intro hlen
        have := attemptCalls_length_le session.firebaseIdToken
        omega
    | error e =>
      by_cases hsig : ¬ (isFirestoreUnauthorizedError e = true) ∧
          e ≠ "MISSING_FIREBASE_ID_TOKEN"
      · simp only [if_pos hsig]
        try dsimp only
        refine ⟨le_trans (attemptCalls_length_le _) (by omega), ?_, ?_, ?_, ?_, ?_⟩
        · intro t ht hne
          rw [ht, attemptCalls_some_ne t hne]
          rfl
        · intro t e2 ht hne hwork _ _
          rw [ht, attemptWork_some_ne work t hne, hwork] at hatt
          injection hatt with hatt
          subst hatt
          exact ⟨rfl, by rw [ht, attemptCalls_some_ne t hne]⟩
        · intro t e2 ht hne hwork hunauth _ _ _ _
          rw [ht, attemptWork_some_ne work t hne, hwork] at hatt
          injection hatt with hatt
          subst hatt
          exact absurd hunauth hsig.1
        · intro t2 h2
          rcases attemptCalls_cases session.firebaseIdToken with hc | ⟨x, _, _, hc⟩ <;>
            rw [hc] at h2 <;> simp at h2
        · intro hlen
          have := attemptCalls_length_le session.firebaseIdToken
          omega
      · simp only [if_neg hsig]
        have hsignal : isFirestoreUnauthorizedError e = true ∨
            e = "MISSING_FIREBASE_ID_TOKEN" := by
          by_cases hu : isFirestoreUnauthorizedError e = true
          · exact Or.inl hu
          · by_cases hm : e = "MISSING_FIREBASE_ID_TOKEN"
            · exact Or.inr hm
            · exact absurd ⟨hu, hm⟩ hsig
        cases href : refreshFirebaseSession apiKey session resp with
        | error e2 =>
          try dsimp only
          refine ⟨le_trans (attemptCalls_length_le _) (by omega), ?_, ?_, ?_, ?_, ?_⟩
          · intro t ht hne
            rw [ht, attemptCalls_some_ne t hne]
            rfl
          · intro t e3 ht hne hwork hu hm
            rw [ht, attemptWork_some_ne work t hne, hwork] at hatt
            injection hatt with hatt
            subst hatt
            exact absurd ⟨by simp [hu], hm⟩ hsig
          · intro t e3 ht hne hwork hunauth h1 h2 h3 h4
            rw [refreshFirebaseSession_mismatch apiKey session resp h1 h2 h3 h4]
              at href
            injection href with href
            subst href
            exact ⟨rfl, by rw [ht, attemptCalls_some_ne t hne]⟩
          · intro t2 h2
            rcases attemptCalls_cases session.firebaseIdToken with hc | ⟨x, _, _, hc⟩ <;>
              rw [hc] at h2 <;> simp at h2
          · intro hlen
            have := attemptCalls_length_le session.firebaseIdToken
            omega
        | ok rs =>
          dsimp only
          obtain ⟨hrid, hruid⟩ := refreshFirebaseSession_ok apiKey session resp rs href
          have htr2 : ∀ t2, (attemptCalls rs.firebaseIdToken).get? 0 = some t2 →
              t2 = resp.id_token := by
            intro t2 h2
            rw [hrid] at h2
            rcases attemptCalls_cases (some resp.id_token) with hc | ⟨x, hx, _, hc⟩ <;>
              rw [hc] at h2
            · simp at h2
            · injection hx with hx
              subst hx
              simp only [List.get?_cons_zero] at h2
              injection h2 with h2
              exact h2.symm
          cases hatt2 : attemptWork work rs.firebaseIdToken with
          | ok d2 =>
            try dsimp only
            refine ⟨?_, ?_, ?_, ?_, ?_, ?_⟩
            · have hl1 := attemptCalls_length_le session.firebaseIdToken
              have hl2 := attemptCalls_length_le rs.firebaseIdToken
              simp only [List.length_append]
              omega
            · intro t ht hne
              rw [ht, attemptCalls_some_ne t hne]
              rfl
            · intro t e3 ht hne hwork hu hm
              rw [ht, attemptWork_some_ne work t hne, hwork] at hatt
              injection hatt with hatt
              subst hatt
              exact absurd ⟨by simp [hu], hm⟩ hsig
            · intro t e3 ht hne hwork hunauth h1 h2 h3 h4
              rw [refreshFirebaseSession_mismatch apiKey session resp h1 h2 h3 h4]
                at href
              cases href
            · intro t2 h2
              rcases attemptCalls_cases session.firebaseIdToken with hc | ⟨x, _, _, hc⟩ <;>
                rw [hc] at h2
              · rcases attemptCalls_cases rs.firebaseIdToken with hc2 | ⟨y, _, _, hc2⟩ <;>
                  rw [hc2] at h2 <;> simp at h2
              · simp only [List.cons_append, List.nil_append, List.get?_cons_succ] at h2
                exact htr2 t2 h2
            · intro hlen
              rcases attemptCalls_cases session.firebaseIdToken with hc | ⟨x, hx, hxe, hc⟩
              · rw [hc] at hlen
                have := attemptCalls_length_le rs.firebaseIdToken
                simp only [List.nil_append] at hlen
                omega
              · refine ⟨x, e, hx, hxe, ?_, hsignal⟩
                rw [hx, attemptWork_some_ne work x hxe] at hatt
                exact hatt
          | error e2 =>
            try dsimp only
            refine ⟨?_, ?_, ?_, ?_, ?_, ?_⟩
            · have hl1 := attemptCalls_length_le session.firebaseIdToken
              have hl2 := attemptCalls_length_le rs.firebaseIdToken
              simp only [List.length_append]
              omega
            · intro t ht hne
              rw [ht, attemptCalls_some_ne t hne]
              rfl
            · intro t e3 ht hne hwork hu hm
              rw [ht, attemptWork_some_ne work t hne, hwork] at hatt
              injection hatt with hatt
              subst hatt
              exact absurd ⟨by simp [hu], hm⟩ hsig
            · intro t e3 ht hne hwork hunauth h1 h2 h3 h4
              rw [refreshFirebaseSession_mismatch apiKey session resp h1 h2 h3 h4]
                at href
              cases href
            · intro t2 h2
              rcases attemptCalls_cases session.firebaseIdToken with hc | ⟨x, _, _, hc⟩ <;>
                rw [hc] at h2
              · rcases attemptCalls_cases rs.firebaseIdToken with hc2 | ⟨y, _, _, hc2⟩ <;>
                  rw [hc2] at h2 <;> simp at h2
              · simp only [List.cons_append, List.nil_append, List.get?_cons_succ] at h2
                exact htr2 t2 h2
            · intro hlen
              rcases attemptCalls_cases session.firebaseIdToken with hc | ⟨x, hx, hxe, hc⟩
              · rw [hc] at hlen
                have := attemptCalls_length_le rs.firebaseIdToken
                simp only [List.nil_append] at hlen
                omega
              · refine ⟨x, e, hx, hxe, ?_, hsignal⟩
                rw [hx, attemptWork_some_ne work x hxe] at hatt
                exact hatt

/-- C3 witness: with a present ID token and a work operation failing with a
non-401 error boom, the wrapper calls work once and propagates boom
unchanged; the call trace has length at most two. -/
theorem refresh_wrapper_retry_discipline_witness :
    ((runWithRefreshedFirebaseTokenTr (α := Nat) (some "key")
        ⟨"u1", "admin", "e", "n", "p", some "tok1", some "rtok"⟩
        (fun _ => .error "boom") ⟨true, 200, none, "id2", "r2", "u1"⟩).2.length ≤ 2) ∧
    (runWithRefreshedFirebaseTokenTr (α := Nat) (some "key")
        ⟨"u1", "admin", "e", "n", "p", some "tok1", some "rtok"⟩
        (fun _ => .error "boom") ⟨true, 200, none, "id2", "r2", "u1"⟩).1 =
      .error "boom" ∧
    (runWithRefreshedFirebaseTokenTr (α := Nat) (some "key")
        ⟨"u1", "admin", "e", "n", "p", some "tok1", some "rtok"⟩
        (fun _ => .error "boom") ⟨true, 200, none, "id2", "r2", "u1"⟩).2 =
      ["tok1"] :=
  ⟨(refresh_wrapper_retry_discipline Nat (some "key")
      ⟨"u1", "admin", "e", "n", "p", some "tok1", some "rtok"⟩
      (fun _ => .error "boom") ⟨true, 200, none, "id2", "r2", "u1"⟩).1,
   ((refresh_wrapper_retry_discipline Nat (some "key")
      ⟨"u1", "admin", "e", "n", "p", some "tok1", some "rtok"⟩
      (fun _ => .error "boom") ⟨true, 200, none, "id2", "r2", "u1"⟩).2.2.1
      "tok1" "boom" rfl (by decide) rfl (by decide) (by decide)).1,
   ((refresh_wrapper_retry_discipline Nat (some "key")
      ⟨"u1", "admin", "e", "n", "p", some "tok1", some "rtok"⟩
      (fun _ => .error "boom") ⟨true, 200, none, "id2", "r2", "u1"⟩).2.2.1
      "tok1" "boom" rfl (by decide) rfl (by decide) (by decide)).2⟩

/-- C4: starting from a legacy member document with a random (non-email) id,
no uid field, a non-empty email and deleted = false, two consecutive
re-invite calls by an admin migrate it to an email-keyed document exactly
once: the first call creates families/fid/members/email (status invited,
not deleted) and marks the legacy document deleted; the second call returns
member_not_found (mapped to a 404 response) and leaves the store exactly as
the first call left it, performing no further migration write. -/
theorem reinvite_migrates_once
    (uid mid fid email emailRaw nameV roleV createdByV createdAtV now1 now2 : String)
    (huid : uid ≠ "") (hfid : fid ≠ "") (hmid_uid : mid ≠ uid)
    (hemail : jsToLower (jsTrim emailRaw) = email)
    (hemail_ne : email ≠ "") (hemail_mid : email ≠ mid) (hemail_uid : email ≠ uid) :
    ∃ store1,
      reinviteWork uid mid now1
        [(.user uid, [("familyIds", stringArrayField [fid])]),
       (.member fid uid, [("role", FirestoreValue.stringValue "admin")]),
       (.member fid mid,
         [("name", FirestoreValue.stringValue nameV),
          ("email", FirestoreValue.stringValue emailRaw),
          ("role", FirestoreValue.stringValue roleV),
          ("createdBy", FirestoreValue.stringValue createdByV),
          ("createdAt", FirestoreValue.timestampValue createdAtV)])] = .ok (.ok now1, store1) ∧
      (∃ emailFields, findDoc store1 (.member fid email) = some emailFields ∧
        readString (some emailFields) "email" = email ∧
        readString (some emailFields) "status" = "invited" ∧
        readBoolean (some emailFields) "deleted" = false) ∧
      (∃ legacyAfter, findDoc store1 (.member fid mid) = some legacyAfter ∧
        readBoolean (some legacyAfter) "deleted" = true) ∧
      reinviteWork uid mid now2 store1 = .ok (.memberNotFound, store1) ∧
      reinviteRespond .memberNotFound = ⟨404, some "member_not_found"⟩ := by
  have hlen : 0 < fid.length := by
    cases fid with
    | mk data =>
      cases data with
      | nil => exact absurd rfl hfid
      | cons c rest => simp [String.length]
  have huid2 : ¬ ("" = uid) := fun h => huid h.symm
  have huid_email : ¬ (uid = email) := fun h => hemail_uid h.symm
  have hmid_email : ¬ (mid = email) := fun h => hemail_mid h.symm
  have huid_mid : ¬ (uid = mid) := fun h => hmid_uid h.symm
  refine ⟨[(.user uid, [("familyIds", stringArrayField [fid])]),
       (.member fid uid, [("role", FirestoreValue.stringValue "admin")]),
       (.member fid mid,
        [("name", FirestoreValue.stringValue nameV),
           ("email", FirestoreValue.stringValue emailRaw),
           ("role", FirestoreValue.stringValue roleV),
           ("createdBy", FirestoreValue.stringValue createdByV),
           ("createdAt", FirestoreValue.timestampValue createdAtV),
           ("deleted", boolField true),
           ("deletedAt", timestampField now1)]),
       (.member fid email,
        [("name", stringField (jsOrDefault nameV "Unnamed member")),
           ("email", stringField email),
           ("role", stringField (if roleV == "admin" then "admin" else "player")),
           ("status", stringField "invited"),
           ("deleted", boolField false),
           ("createdBy", stringField (jsOrDefault createdByV uid)),
           ("createdAt", timestampField (jsOrDefault createdAtV now1)),
           ("reinvitedAt", timestampField now1)]),
       (.inviteLookup email,
        [("email", stringField email),
           ("familyId", stringField fid),
           ("role", stringField (if roleV == "admin" then "admin" else "player")),
           ("status", stringField "invited"),
           ("updatedAt", timestampField now1)])],
    ?_,
    ⟨[("name", stringField (jsOrDefault nameV "Unnamed member")),
      ("email", stringField email),
      ("role", stringField (if roleV == "admin" then "admin" else "player")),
      ("status", stringField "invited"),
      ("deleted", boolField false),
      ("createdBy", stringField (jsOrDefault createdByV uid)),
      ("createdAt", timestampField (jsOrDefault createdAtV now1)),
      ("reinvitedAt", timestampField now1)], ?_, ?_, ?_, ?_⟩,
    ⟨[("name", FirestoreValue.stringValue nameV),
      ("email", FirestoreValue.stringValue emailRaw),
      ("role", FirestoreValue.stringValue roleV),
      ("createdBy", FirestoreValue.stringValue createdByV),
      ("createdAt", FirestoreValue.timestampValue createdAtV),
      ("deleted", boolField true),
      ("deletedAt", timestampField now1)], ?_, ?_⟩,
    ?_, rfl⟩
  · unfold reinviteWork getPrimaryFamilyId
    simp [getDocumentS, findDoc, readStringArray, getFieldOpt, getField,
      stringArrayField, readString, readBoolean, readTimestamp, setDoc, patchDoc,
      upsertField, stringField, timestampField, boolField, jsOrDefault,
      bind, Except.bind, pure, Except.pure, hlen, hemail, hemail_ne, hemail_mid,
      hemail_uid, hmid_uid, huid, hfid, huid2, huid_email, hmid_email, huid_mid]
  · simp [getDocumentS, findDoc, readStringArray, getFieldOpt, getField,
      stringArrayField, readString, readBoolean, readTimestamp, setDoc, patchDoc,
      upsertField, stringField, timestampField, boolField, jsOrDefault,
      bind, Except.bind, pure, Except.pure, hlen, hemail, hemail_ne, hemail_mid,
      hemail_uid, hmid_uid, huid, hfid, huid2, huid_email, hmid_email, huid_mid]
  · rfl
  · rfl
  · rfl
  · simp [getDocumentS, findDoc, readStringArray, getFieldOpt, getField,
      stringArrayField, readString, readBoolean, readTimestamp, setDoc, patchDoc,
      upsertField, stringField, timestampField, boolField, jsOrDefault,
      bind, Except.bind, pure, Except.pure, hlen, hemail, hemail_ne, hemail_mid,
      hemail_uid, hmid_uid, huid, hfid, huid2, huid_email, hmid_email, huid_mid]
  · rfl
  · unfold reinviteWork getPrimaryFamilyId
    simp [getDocumentS, findDoc, readStringArray, getFieldOpt, getField,
      stringArrayField, readString, readBoolean, readTimestamp, setDoc, patchDoc,
      upsertField, stringField, timestampField, boolField, jsOrDefault,
      bind, Except.bind, pure, Except.pure, hlen, hemail, hemail_ne, hemail_mid,
      hemail_uid, hmid_uid, huid, hfid, huid2, huid_email, hmid_email, huid_mid]

/-- C4 witness: a concrete legacy invite (random id m-123, email
Kid@Example.com, no uid, not deleted) is migrated exactly once across two
consecutive admin re-invite calls. -/
theorem reinvite_migrates_once_witness :
    ∃ store1,
      reinviteWork "u1" "m-123" "2026-02-01T00:00:00Z"
        [(.user "u1", [("familyIds", stringArrayField ["f1"])]),
         (.member "f1" "u1", [("role", FirestoreValue.stringValue "admin")]),
         (.member "f1" "m-123",
           [("name", FirestoreValue.stringValue "Kid"),
            ("email", FirestoreValue.stringValue " Kid@Example.com "),
            ("role", FirestoreValue.stringValue "player"),
            ("createdBy", FirestoreValue.stringValue "u1"),
            ("createdAt", FirestoreValue.timestampValue "2025-01-01T00:00:00Z")])] =
        .ok (.ok "2026-02-01T00:00:00Z", store1) ∧
      (∃ emailFields,
        findDoc store1 (.member "f1" "kid@example.com") = some emailFields ∧
        readString (some emailFields) "email" = "kid@example.com" ∧
        readString (some emailFields) "status" = "invited" ∧
        readBoolean (some emailFields) "deleted" = false) ∧
      (∃ legacyAfter, findDoc store1 (.member "f1" "m-123") = some legacyAfter ∧
        readBoolean (some legacyAfter) "deleted" = true) ∧
      reinviteWork "u1" "m-123" "2026-02-02T00:00:00Z" store1 =
        .ok (.memberNotFound, store1) ∧
      reinviteRespond .memberNotFound = ⟨404, some "member_not_found"⟩ :=
  reinvite_migrates_once "u1" "m-123" "f1" "kid@example.com" " Kid@Example.com "
    "Kid" "player" "u1" "2025-01-01T00:00:00Z"
    "2026-02-01T00:00:00Z" "2026-02-02T00:00:00Z"
    (by decide) (by decide) (by decide) (by decide) (by decide) (by decide)
    (by decide)
end ChoresGame
